import Mathlib

/-!
Shallow embedding of the Iron Track workout logging server
(src/backend/workout_server.py) together with proofs about its
merge-and-store layer and its aggregation endpoints.

The external pieces (Flask, the Gemini model, the Supabase client) are
modelled as follows: the HTTP handlers become pure functions over an
explicit relational store, the Gemini call becomes an oracle parameter
returning a parsed document or an error, and the three Supabase tables
become lists of rows with serial ids handed out by the store state.
All numbers are naturals: reps and weights in the schema are
non-negative, and every arithmetic the server performs on them
(sums, products, maxima) is exact.
-/

namespace IronTrack

/-! ## Python string primitives used by the server -/

/-- Whitespace characters recognised by the Python str.strip method
(ASCII subset: space, tab, newline, carriage return, vertical tab,
form feed). -/
def pyIsSpace (c : Char) : Bool :=
  c = ' ' || c = '\t' || c = '\n' || c = '\r' || c = '\x0b' || c = '\x0c'

/-- Python str.strip: drop leading and trailing whitespace. -/
def pyStrip (s : String) : String :=
  ⟨((s.data.dropWhile pyIsSpace).reverse.dropWhile pyIsSpace).reverse⟩

/-- Worker for pyTitle: the flag records whether the previous character
was alphabetic, exactly as CPython tracks the previous cased character
for str.title over ASCII text. -/
def pyTitleGo : Bool → List Char → List Char
  | _, [] => []
  | prevAlpha, c :: rest =>
      if c.isAlpha then
        (if prevAlpha then c.toLower else c.toUpper) :: pyTitleGo true rest
      else
        c :: pyTitleGo false rest

/-- Python str.title: first letter of every alphabetic run uppercased,
the rest of the run lowercased. -/
def pyTitle (s : String) : String := ⟨pyTitleGo false s.data⟩

/-- Strict lexicographic comparison on code points, the order Python
and the database apply to date strings. -/
def strLtb : List Char → List Char → Bool
  | [], [] => false
  | [], _ :: _ => true
  | _ :: _, [] => false
  | a :: as, b :: bs =>
      if a.toNat < b.toNat then true
      else if b.toNat < a.toNat then false
      else strLtb as bs

/-- Non-strict string comparison used as a sort key. -/
def pyStrLe (a b : String) : Bool := !(strLtb b.data a.data)

/-! ## Stable sorting

Python sorted and the database order clause are stable sorts; we model
both with a structural insertion sort, which is stable for any total
comparator. -/

/-- Insert an element into a sorted list, before the first element it
compares le to; equal keys keep the inserted element first, matching
the placement a stable sort gives an element that came earlier. -/
def insertSortedBy (le : α → α → Bool) (a : α) : List α → List α
  | [] => [a]
  | b :: l => if le a b then a :: b :: l else b :: insertSortedBy le a l

/-- Stable sort by a Bool comparator (insertion sort). -/
def sortBy (le : α → α → Bool) : List α → List α
  | [] => []
  | a :: l => insertSortedBy le a (sortBy le l)

/-! ## Parsed workout documents

The JSON document produced by parse_workout_with_gemini, as the rest of
the server consumes it. RawParsed is the document as it leaves the
model, where the date may still be missing or empty; WorkoutData is the
document after parse_workout_with_gemini has forced a date in. -/

structure SetData where
  set_number : Option Nat
  reps : Nat
  weight_lbs : Option Nat
deriving DecidableEq

structure ExerciseData where
  name : String
  sets : List SetData
deriving DecidableEq

structure RawParsed where
  date : Option String
  duration_minutes : Option Nat
  workout_type : Option String
  exercises : List ExerciseData
  notes : Option String
deriving DecidableEq

structure WorkoutData where
  date : String
  duration_minutes : Option Nat
  workout_type : Option String
  exercises : List ExerciseData
  notes : Option String
deriving DecidableEq

/-- The date-defaulting step at the end of parse_workout_with_gemini:
a missing or empty date field becomes today. Python tests the field
with truthiness, so both absence and the empty string are replaced. -/
def ensureDate (today : String) (raw : RawParsed) : WorkoutData :=
  { date :=
      match raw.date with
      | none => today
      | some d => if d = "" then today else d,
    duration_minutes := raw.duration_minutes,
    workout_type := raw.workout_type,
    exercises := raw.exercises,
    notes := raw.notes }

/-- parse_workout_with_gemini: call the model (an oracle here), wrap
any failure in the generic message, then default the date. -/
def parse_workout_with_gemini (gemini : String → Except String RawParsed)
    (today : String) (text : String) : Except String WorkoutData :=
  match gemini text with
  | Except.error e => Except.error ("Failed to parse workout with Gemini: " ++ e)
  | Except.ok raw => Except.ok (ensureDate today raw)

/-! ## The relational store

Rows carry exactly the columns the server writes or reads; serial ids
are handed out by counters in the store state, standing in for the
database sequences. -/

structure WorkoutRow where
  id : Nat
  date : String
  duration_minutes : Option Nat
  workout_type : String
  notes : String
deriving DecidableEq

structure ExerciseRow where
  id : Nat
  workout_id : Nat
  exercise_name : String
  order_index : Nat
deriving DecidableEq

structure SetRow where
  exercise_id : Nat
  set_number : Nat
  reps : Nat
  weight_lbs : Nat
deriving DecidableEq

structure Store where
  workouts : List WorkoutRow
  exercises : List ExerciseRow
  sets : List SetRow
  next_workout_id : Nat
  next_exercise_id : Nat
deriving DecidableEq

def emptyStore : Store :=
  { workouts := [], exercises := [], sets := [], next_workout_id := 0,
    next_exercise_id := 0 }

/-- Values appearing in an insert payload sent to the database. -/
inductive PyVal where
  | vnull
  | vstr (s : String)
  | vnat (n : Nat)
deriving DecidableEq

/-- The workout_insert dict built by store_workout_in_supabase before
inserting a fresh workout row: every key is always present, and the
duration value is whatever dict.get returned, null included. -/
def workoutInsertDict (wd : WorkoutData) : List (String × PyVal) :=
  [("date", PyVal.vstr wd.date),
   ("duration_minutes",
     match wd.duration_minutes with
     | some n => PyVal.vnat n
     | none => PyVal.vnull),
   ("workout_type", PyVal.vstr (wd.workout_type.getD "strength")),
   ("notes", PyVal.vstr (wd.notes.getD ""))]

/-- The workout row a fresh insert creates, with the serial id the
database hands back. -/
def newWorkoutRow (wd : WorkoutData) (wid : Nat) : WorkoutRow :=
  { id := wid, date := wd.date,
    duration_minutes := wd.duration_minutes,
    workout_type := wd.workout_type.getD "strength",
    notes := wd.notes.getD "" }

/-- The set rows the inner loop of store_workout_in_supabase inserts
for one exercise: set_number is the 1-based loop index, the reps come
from the parsed set, and a missing weight defaults to 0. The parsed
set_number field is never consulted. -/
def setRowsForExercise (eid : Nat) (sets : List SetData) : List SetRow :=
  sets.enum.map (fun p =>
    { exercise_id := eid, set_number := p.1 + 1, reps := p.2.reps,
      weight_lbs := p.2.weight_lbs.getD 0 })

/-- The exercise loop of store_workout_in_supabase: each parsed
exercise is inserted with order_index equal to the loop index, its name
passed through strip and title, and then its sets are inserted. -/
def insertExercisesFrom (wid : Nat) (idx : Nat) (exs : List ExerciseData)
    (st : Store) : Store :=
  match exs with
  | [] => st
  | ex :: rest =>
      let eid := st.next_exercise_id
      let exRow : ExerciseRow :=
        { id := eid, workout_id := wid,
          exercise_name := pyTitle (pyStrip ex.name), order_index := idx }
      let st1 : Store :=
        { st with exercises := st.exercises ++ [exRow],
                  next_exercise_id := eid + 1 }
      let st2 : Store := { st1 with sets := st1.sets ++ setRowsForExercise eid ex.sets }
      insertExercisesFrom wid (idx + 1) rest st2

/-- store_workout_in_supabase: look for a workout row with the same
date; reuse the first hit, otherwise insert a fresh row built from
workoutInsertDict; then run the exercise loop against the chosen
workout id. Returns the workout id together with the new store. -/
def store_workout_in_supabase (wd : WorkoutData) (st : Store) : Nat × Store :=
  match st.workouts.filter (fun w => w.date == wd.date) with
  | w :: _ => (w.id, insertExercisesFrom w.id 0 wd.exercises st)
  | [] =>
      let row := newWorkoutRow wd st.next_workout_id
      let st1 : Store :=
        { st with workouts := st.workouts ++ [row],
                  next_workout_id := st.next_workout_id + 1 }
      (row.id, insertExercisesFrom row.id 0 wd.exercises st1)

/-! Closed forms for the rows one store call appends, used to state
what the exercise loop leaves behind. -/

/-- Exercise rows created by one store call: serial ids from base,
order_index counting up from idx, names through strip and title. -/
def newExerciseRows (wid base idx : Nat) : List ExerciseData → List ExerciseRow
  | [] => []
  | ex :: rest =>
      { id := base, workout_id := wid,
        exercise_name := pyTitle (pyStrip ex.name), order_index := idx }
        :: newExerciseRows wid (base + 1) (idx + 1) rest

/-- Set rows created by one store call, per exercise in order. -/
def newSetRows (base : Nat) : List ExerciseData → List SetRow
  | [] => []
  | ex :: rest => setRowsForExercise base ex.sets ++ newSetRows (base + 1) rest

/-! ## The log-workout webhook -/

/-- The JSON body of a POST to the webhook, reduced to the two keys the
handler reads. -/
structure ReqBody where
  api_key : Option String
  text : Option String
deriving DecidableEq

/-- Python truthiness of the request dict: an empty dict is falsy and
is rejected as missing JSON. -/
def bodyFalsy (b : ReqBody) : Bool := b.api_key.isNone && b.text.isNone

/-- Observable outcome of one webhook call: the HTTP status, the error
string if any, the returned workout id if any, and whether the handler
reached the Gemini call and the store call. -/
structure LogResult where
  status : Nat
  error : Option String
  workout_id : Option Nat
  geminiInvoked : Bool
  storeCalled : Bool
deriving DecidableEq

/-- The log_workout handler: reject a missing or empty JSON body with
400, a wrong api_key with 401, blank text with 400; otherwise parse
with Gemini (500 on failure) and store the result. -/
def log_workout (cfg : String) (gemini : String → Except String RawParsed)
    (today : String) (data : Option ReqBody) (st : Store) : LogResult × Store :=
  match data with
  | none =>
      ({ status := 400, error := some "No JSON data provided",
         workout_id := none, geminiInvoked := false, storeCalled := false }, st)
  | some b =>
      if bodyFalsy b then
        ({ status := 400, error := some "No JSON data provided",
           workout_id := none, geminiInvoked := false, storeCalled := false }, st)
      else if b.api_key ≠ some cfg then
        ({ status := 401, error := some "Invalid API key",
           workout_id := none, geminiInvoked := false, storeCalled := false }, st)
      else
        let workout_text := pyStrip (b.text.getD "")
        if workout_text = "" then
          ({ status := 400, error := some "No workout text provided",
             workout_id := none, geminiInvoked := false, storeCalled := false }, st)
        else
          match parse_workout_with_gemini gemini today workout_text with
          | Except.error e =>
              ({ status := 500, error := some e, workout_id := none,
                 geminiInvoked := true, storeCalled := false }, st)
          | Except.ok wd =>
              let r := store_workout_in_supabase wd st
              ({ status := 200, error := none, workout_id := some r.1,
                 geminiInvoked := true, storeCalled := true }, r.2)

/-! ## Read endpoints -/

/-- The weight coercion the read paths apply to every stored weight:
Python maps a falsy weight to 0 and keeps the value otherwise, which on
naturals is the identity. -/
def pyWeight (w : Nat) : Nat := if w ≠ 0 then w else 0

/-- Sets of one exercise in set_number order, as the select with the
order clause returns them. -/
def setsOfExercise (st : Store) (eid : Nat) : List SetRow :=
  sortBy (fun a b => decide (a.set_number ≤ b.set_number))
    (st.sets.filter (fun s => s.exercise_id == eid))

structure SetView where
  set_number : Nat
  reps : Nat
  weight : Nat
deriving DecidableEq

structure ExerciseView where
  name : String
  sets : List SetView
deriving DecidableEq

structure WorkoutView where
  id : Nat
  date : String
  duration_minutes : Option Nat
  workout_type : String
  notes : String
  exercises : List ExerciseView
  total_volume : Nat
deriving DecidableEq

/-- The per-workout volume get_all_workouts accumulates: each set with
a truthy weight and truthy reps contributes weight times reps. -/
def workoutVolume (st : Store) (wid : Nat) : Nat :=
  (sortBy (fun a b => decide (a.order_index ≤ b.order_index))
      (st.exercises.filter (fun e => e.workout_id == wid))).foldl
    (fun acc e =>
      (setsOfExercise st e.id).foldl
        (fun acc2 s =>
          if s.weight_lbs ≠ 0 ∧ s.reps ≠ 0 then acc2 + s.weight_lbs * s.reps
          else acc2) acc) 0

/-- One entry of the get_all_workouts response. -/
def workoutViewOf (st : Store) (w : WorkoutRow) : WorkoutView :=
  { id := w.id, date := w.date, duration_minutes := w.duration_minutes,
    workout_type := w.workout_type, notes := w.notes,
    exercises :=
      (sortBy (fun a b => decide (a.order_index ≤ b.order_index))
          (st.exercises.filter (fun e => e.workout_id == w.id))).map (fun e =>
        { name := e.exercise_name,
          sets := (setsOfExercise st e.id).map (fun s =>
            { set_number := s.set_number, reps := s.reps,
              weight := pyWeight s.weight_lbs }) }),
    total_volume := workoutVolume st w.id }

/-- get_all_workouts: guard the api_key, then list every workout newest
first with nested exercises, sets and the computed volume. -/
def get_all_workouts (cfg : String) (api_key : Option String) (st : Store) :
    (Nat × Option (List WorkoutView)) × Store :=
  if api_key ≠ some cfg then ((401, none), st)
  else
    ((200, some ((sortBy (fun a b => pyStrLe b.date a.date) st.workouts).map
        (workoutViewOf st))), st)

structure HistoryEntry where
  exercise_id : Nat
  workout_id : Nat
  date : Option String
  workout_type : Option String
  duration_minutes : Option Nat
  notes : Option String
  sets : List SetRow
  total_sets : Nat
  total_reps : Nat
  total_volume : Nat
  max_weight : Nat
  max_reps : Nat
deriving DecidableEq

structure ExerciseStats where
  total_workouts : Nat
  total_sets : Nat
  total_reps : Nat
  total_volume : Nat
  max_weight_ever : Nat
  max_reps_ever : Nat
deriving DecidableEq

structure HistoryResponse where
  exercise_id : Nat
  exercise_name : String
  history : List HistoryEntry
  statistics : ExerciseStats
deriving DecidableEq

inductive HistoryResult where
  | unauthorized
  | notFound
  | empty (exercise_id : Nat) (exercise_name : String)
  | full (resp : HistoryResponse)
deriving DecidableEq

/-- Sum of reps over a list of set rows, matching the generator sums in
the history endpoint. -/
def sumReps (l : List SetRow) : Nat := (l.map (fun s => s.reps)).sum

/-- Sum of reps times weight over a list of set rows. -/
def sumVolume (l : List SetRow) : Nat := (l.map (fun s => s.reps * s.weight_lbs)).sum

/-- Maximum weight over a list of set rows, 0 for the empty list, the
default the Python max call uses. -/
def maxWeight (l : List SetRow) : Nat := (l.map (fun s => s.weight_lbs)).foldr Nat.max 0

/-- Maximum reps over a list of set rows, 0 for the empty list. -/
def maxReps (l : List SetRow) : Nat := (l.map (fun s => s.reps)).foldr Nat.max 0

/-- One history entry of get_exercise_history, built from an exercise
row: its sets sorted by set_number, the workout looked up by id (ids
are primary keys, so the first hit is the row), and the four statistics
computed over the sorted sets. -/
def mkHistoryEntry (st : Store) (e : ExerciseRow) : HistoryEntry :=
  let w? := st.workouts.find? (fun w => w.id == e.workout_id)
  let ss := sortBy (fun a b => decide (a.set_number ≤ b.set_number))
    (st.sets.filter (fun s => s.exercise_id == e.id))
  { exercise_id := e.id, workout_id := e.workout_id,
    date := w?.map (fun w => w.date),
    workout_type := w?.map (fun w => w.workout_type),
    duration_minutes := w?.bind (fun w => w.duration_minutes),
    notes := w?.map (fun w => w.notes),
    sets := ss,
    total_sets := ss.length,
    total_reps := sumReps ss,
    total_volume := sumVolume ss,
    max_weight := maxWeight ss,
    max_reps := maxReps ss }

/-- All sets of a history list in entry order, the all_sets list the
endpoint flattens before computing the overall statistics. -/
def allSetsOf (hs : List HistoryEntry) : List SetRow := (hs.map (fun h => h.sets)).flatten

/-- get_exercise_history: guard the api_key, resolve the id to a name
(404 when absent), gather every exercise row with that name, build one
history entry per row sorted newest first, and compute the overall
statistics over all their sets. -/
def get_exercise_history (cfg : String) (api_key : Option String) (eid : Nat)
    (st : Store) : (Nat × HistoryResult) × Store :=
  if api_key ≠ some cfg then ((401, HistoryResult.unauthorized), st)
  else
    match st.exercises.find? (fun e => e.id == eid) with
    | none => ((404, HistoryResult.notFound), st)
    | some e0 =>
        let name := e0.exercise_name
        let matching := st.exercises.filter (fun e => e.exercise_name == name)
        if matching.isEmpty then ((200, HistoryResult.empty eid name), st)
        else
          let history := sortBy
            (fun a b => pyStrLe (b.date.getD "") (a.date.getD ""))
            (matching.map (mkHistoryEntry st))
          let all_sets := allSetsOf history
          let stats : ExerciseStats :=
            { total_workouts := history.length,
              total_sets := all_sets.length,
              total_reps := sumReps all_sets,
              total_volume := sumVolume all_sets,
              max_weight_ever := maxWeight all_sets,
              max_reps_ever := maxReps all_sets }
          ((200, HistoryResult.full
            { exercise_id := eid, exercise_name := name,
              history := history, statistics := stats }), st)

/-! ## get_all_exercises -/

structure SetDetail where
  set_number : Nat
  reps : Nat
  weight : Nat
deriving DecidableEq

structure SessionEntry where
  date : String
  total_sets : Nat
  weight : Nat
  reps : Nat
  volume : Nat
  set_details : List SetDetail
deriving DecidableEq

structure ExerciseAgg where
  name : String
  pr_weight : Nat
  pr_date : Option String
  history : List SessionEntry
  session_dates : List String
deriving DecidableEq

structure ExerciseSummary where
  name : String
  pr_weight : Nat
  pr_date : Option String
  history : List SessionEntry
  total_sessions : Nat
deriving DecidableEq

/-- One row of the join the endpoint selects: an exercise with its
workout date (inner join on workout_id) and its sets. -/
structure JoinedExercise where
  exercise_name : String
  workout_date : String
  sets : List SetRow
deriving DecidableEq

/-- The select with the inner workout join: exercises whose workout id
resolves, each with its workout date and its sets in store order. -/
def joinedExercises (st : Store) : List JoinedExercise :=
  st.exercises.filterMap (fun e =>
    (st.workouts.find? (fun w => w.id == e.workout_id)).map (fun w =>
      { exercise_name := e.exercise_name, workout_date := w.date,
        sets := st.sets.filter (fun s => s.exercise_id == e.id) }))

/-- The PR loop over one record: a set strictly heavier than the
current PR replaces it and stamps the record date. -/
def updatePR (p : Nat × Option String) (date : String) (sets : List SetRow) :
    Nat × Option String :=
  sets.foldl (fun q s =>
    if pyWeight s.weight_lbs > q.1 then (pyWeight s.weight_lbs, some date) else q) p

/-- Folding more sets into an existing session entry for the same
date. -/
def addSetsToSession (sess : SessionEntry) (sets : List SetRow) : SessionEntry :=
  sets.foldl (fun acc s =>
    { acc with total_sets := acc.total_sets + 1,
               volume := acc.volume + pyWeight s.weight_lbs * s.reps,
               set_details := acc.set_details ++
                 [{ set_number := s.set_number, reps := s.reps,
                    weight := pyWeight s.weight_lbs }] }) sess

/-- The first maximal-weight set, matching Python max with a key and a
None default: a strictly heavier set replaces the champion. -/
def topSet (sets : List SetRow) : Option SetRow :=
  sets.foldl (fun acc s =>
    match acc with
    | none => some s
    | some t => if s.weight_lbs > t.weight_lbs then some s else acc) none

/-- A fresh session entry for a date not seen before for this
exercise name. -/
def newSession (date : String) (sets : List SetRow) : SessionEntry :=
  { date := date,
    total_sets := sets.length,
    weight :=
      match topSet sets with
      | some t => pyWeight t.weight_lbs
      | none => 0,
    reps :=
      match topSet sets with
      | some t => t.reps
      | none => 0,
    volume := (sets.map (fun s => s.weight_lbs * s.reps)).sum,
    set_details := sets.map (fun s =>
      { set_number := s.set_number, reps := s.reps,
        weight := pyWeight s.weight_lbs }) }

/-- Update the one dict entry carrying this name (Python dicts hold a
single value per key; the list mirrors dict insertion order). -/
def updateFirstAgg (f : ExerciseAgg → ExerciseAgg) (name : String) :
    List ExerciseAgg → List ExerciseAgg
  | [] => []
  | a :: rest =>
      if a.name == name then f a :: rest else a :: updateFirstAgg f name rest

/-- Update the first session entry carrying this date, the way the
Python loop finds the session and breaks. -/
def updateFirstSession (d : String) (sets : List SetRow) :
    List SessionEntry → List SessionEntry
  | [] => []
  | s :: rest =>
      if s.date == d then addSetsToSession s sets :: rest
      else s :: updateFirstSession d sets rest

/-- Everything the loop body does to the aggregate of one name for one
joined record: the PR scan, then either extending the session of the
same date or appending a fresh session and recording the date. -/
def updateAgg (a : ExerciseAgg) (r : JoinedExercise) : ExerciseAgg :=
  let pr := updatePR (a.pr_weight, a.pr_date) r.workout_date r.sets
  let a1 : ExerciseAgg := { a with pr_weight := pr.1, pr_date := pr.2 }
  if a1.history.any (fun s => s.date == r.workout_date) then
    { a1 with history := updateFirstSession r.workout_date r.sets a1.history }
  else
    { a1 with history := a1.history ++ [newSession r.workout_date r.sets],
              session_dates :=
                if r.workout_date ∈ a1.session_dates then a1.session_dates
                else a1.session_dates ++ [r.workout_date] }

/-- A fresh dict entry for a name seen for the first time. -/
def initAgg (name : String) : ExerciseAgg :=
  { name := name, pr_weight := 0, pr_date := none, history := [],
    session_dates := [] }

/-- The loop body of get_all_exercises over one joined record. -/
def processRecord (acc : List ExerciseAgg) (r : JoinedExercise) :
    List ExerciseAgg :=
  if acc.any (fun a => a.name == r.exercise_name) then
    updateFirstAgg (fun a => updateAgg a r) r.exercise_name acc
  else
    acc ++ [updateAgg (initAgg r.exercise_name) r]

/-- Finalisation of one dict entry: history sorted newest first, the
session count, and the date set dropped. -/
def finalizeAgg (a : ExerciseAgg) : ExerciseSummary :=
  { name := a.name, pr_weight := a.pr_weight, pr_date := a.pr_date,
    history := sortBy (fun x y => pyStrLe y.date x.date) a.history,
    total_sessions := a.session_dates.length }

/-- get_all_exercises: guard the api_key, fold every joined exercise
record into the per-name dict, finalise each entry and sort the result
alphabetically. -/
def get_all_exercises (cfg : String) (api_key : Option String) (st : Store) :
    (Nat × Option (List ExerciseSummary)) × Store :=
  if api_key ≠ some cfg then ((401, none), st)
  else
    ((200, some (sortBy (fun x y => pyStrLe x.name y.name)
        (((joinedExercises st).foldl processRecord []).map finalizeAgg))), st)

/-- All stored sets hanging off exercise rows with the given name, the
population the spec says a PR ranges over. -/
def namedSets (st : Store) (name : String) : List SetRow :=
  ((st.exercises.filter (fun e => e.exercise_name == name)).map
    (fun e => st.sets.filter (fun s => s.exercise_id == e.id))).flatten

/-- Dict lookup by exercise name over the aggregation accumulator. -/
def findAgg (l : List ExerciseAgg) (name : String) : Option ExerciseAgg :=
  l.find? (fun a => a.name == name)

/-- The joined records carrying a given exercise name. -/
def recsOfName (name : String) (recs : List JoinedExercise) :
    List JoinedExercise :=
  recs.filter (fun r => r.exercise_name == name)

/-- The PR scan of one joined record, as a step on the weight-date
pair. -/
def prStep (p : Nat × Option String) (r : JoinedExercise) : Nat × Option String :=
  updatePR p r.workout_date r.sets

/-- All sets of a list of joined records, in record order. -/
def allRecSets (rs : List JoinedExercise) : List SetRow :=
  (rs.map (fun r => r.sets)).flatten

/-! ## Concrete fixtures for witnesses and counterexamples -/

/-- First submission of a day: two exercises, no sets. -/
def wdA : WorkoutData :=
  { date := "2025-01-01", duration_minutes := none, workout_type := some "push",
    exercises := [{ name := "A", sets := [] }, { name := "B", sets := [] }],
    notes := none }

/-- Second submission of the same day: one exercise. -/
def wdB : WorkoutData :=
  { date := "2025-01-01", duration_minutes := none, workout_type := some "push",
    exercises := [{ name := "C", sets := [] }], notes := none }

/-- The store after logging wdA and then wdB into an empty store. -/
def stAB : Store :=
  (store_workout_in_supabase wdB (store_workout_in_supabase wdA emptyStore).2).2

/-- A parsed workout that omits its duration. -/
def wdNoDuration : WorkoutData :=
  { date := "2025-02-03", duration_minutes := none,
    workout_type := some "strength", exercises := [], notes := some "leg day" }

/-- A small populated store: one workout on 2025-01-01 holding one
Bench Press exercise with two sets. -/
def stBench : Store :=
  { workouts := [{ id := 0, date := "2025-01-01", duration_minutes := none,
                   workout_type := "strength", notes := "" }],
    exercises := [{ id := 0, workout_id := 0, exercise_name := "Bench Press",
                    order_index := 0 }],
    sets := [{ exercise_id := 0, set_number := 1, reps := 5, weight_lbs := 100 },
             { exercise_id := 0, set_number := 2, reps := 3, weight_lbs := 120 }],
    next_workout_id := 1, next_exercise_id := 1 }

/-- A store whose only exercise has a single set of weight 0. -/
def stSquat : Store :=
  { workouts := [{ id := 0, date := "2025-01-01", duration_minutes := none,
                   workout_type := "legs", notes := "" }],
    exercises := [{ id := 0, workout_id := 0, exercise_name := "Squat",
                    order_index := 0 }],
    sets := [{ exercise_id := 0, set_number := 1, reps := 5, weight_lbs := 0 }],
    next_workout_id := 1, next_exercise_id := 1 }

/-- The summary get_all_exercises computes for stBench. -/
def sBench : ExerciseSummary :=
  { name := "Bench Press", pr_weight := 120, pr_date := some "2025-01-01",
    history := [{ date := "2025-01-01", total_sets := 2, weight := 120,
                  reps := 3, volume := 860,
                  set_details := [{ set_number := 1, reps := 5, weight := 100 },
                                  { set_number := 2, reps := 3, weight := 120 }] }],
    total_sessions := 1 }

/-! ## Characterisation of one store call -/

theorem insertExercisesFrom_eq (wid : Nat) (exs : List ExerciseData) :
    ∀ (idx : Nat) (st : Store),
    insertExercisesFrom wid idx exs st =
      { workouts := st.workouts,
        exercises := st.exercises ++ newExerciseRows wid st.next_exercise_id idx exs,
        sets := st.sets ++ newSetRows st.next_exercise_id exs,
        next_workout_id := st.next_workout_id,
        next_exercise_id := st.next_exercise_id + exs.length } := by
  induction exs with
  | nil =>
      intro idx st
      simp [insertExercisesFrom, newExerciseRows, newSetRows]
  | cons ex rest ih =>
      intro idx st
      rw [insertExercisesFrom, ih]
      simp [newExerciseRows, newSetRows, List.append_assoc, Nat.add_comm,
        Nat.add_left_comm, Nat.add_assoc]

theorem store_new (wd : WorkoutData) (st : Store)
    (h : st.workouts.filter (fun w => w.date == wd.date) = []) :
    store_workout_in_supabase wd st =
      (st.next_workout_id,
        { workouts := st.workouts ++ [newWorkoutRow wd st.next_workout_id],
          exercises := st.exercises
            ++ newExerciseRows st.next_workout_id st.next_exercise_id 0 wd.exercises,
          sets := st.sets ++ newSetRows st.next_exercise_id wd.exercises,
          next_workout_id := st.next_workout_id + 1,
          next_exercise_id := st.next_exercise_id + wd.exercises.length }) := by
  unfold store_workout_in_supabase
  rw [h]
  simp [insertExercisesFrom_eq, newWorkoutRow]

theorem store_existing (wd : WorkoutData) (st : Store) (w : WorkoutRow)
    (ws : List WorkoutRow)
    (h : st.workouts.filter (fun x => x.date == wd.date) = w :: ws) :
    store_workout_in_supabase wd st =
      (w.id,
        { workouts := st.workouts,
          exercises := st.exercises
            ++ newExerciseRows w.id st.next_exercise_id 0 wd.exercises,
          sets := st.sets ++ newSetRows st.next_exercise_id wd.exercises,
          next_workout_id := st.next_workout_id,
          next_exercise_id := st.next_exercise_id + wd.exercises.length }) := by
  unfold store_workout_in_supabase
  rw [h]
  simp [insertExercisesFrom_eq]

theorem newExerciseRows_workout_id (wid : Nat) (exs : List ExerciseData) :
    ∀ base idx, ∀ e ∈ newExerciseRows wid base idx exs, e.workout_id = wid := by
  induction exs with
  | nil => intro base idx e he; simp [newExerciseRows] at he
  | cons ex rest ih =>
      intro base idx e he
      rw [newExerciseRows] at he
      rcases List.mem_cons.mp he with h | h
      · rw [h]
      · exact ih (base + 1) (idx + 1) e h

/-- Claim C1: starting from a store holding no workout for a date,
logging two workouts carrying that date leaves exactly one workout row
for the date, the second call returns the id of the row the first call
created, and the exercise rows of both submissions are appended to the
store attached to that single workout id. -/
theorem C1_same_date_merge (wd1 wd2 : WorkoutData) (st : Store)
    (hd : wd2.date = wd1.date)
    (h0 : st.workouts.filter (fun w => w.date == wd1.date) = []) :
    ((store_workout_in_supabase wd2 (store_workout_in_supabase wd1 st).2).2.workouts.filter
        (fun w => w.date == wd1.date)).length = 1 ∧
    (store_workout_in_supabase wd2 (store_workout_in_supabase wd1 st).2).1
      = (store_workout_in_supabase wd1 st).1 ∧
    (store_workout_in_supabase wd2 (store_workout_in_supabase wd1 st).2).2.exercises
      = st.exercises
        ++ newExerciseRows (store_workout_in_supabase wd1 st).1
             st.next_exercise_id 0 wd1.exercises
        ++ newExerciseRows (store_workout_in_supabase wd1 st).1
             (st.next_exercise_id + wd1.exercises.length) 0 wd2.exercises ∧
    (∀ wid exs base idx, ∀ e ∈ newExerciseRows wid base idx exs,
      e.workout_id = wid) := by
  have e1 := store_new wd1 st h0
  have hrow : (newWorkoutRow wd1 st.next_workout_id).date = wd1.date := rfl
  have hfilter :
      (store_workout_in_supabase wd1 st).2.workouts.filter
        (fun x => x.date == wd2.date)
        = [newWorkoutRow wd1 st.next_workout_id] := by
    rw [e1]
    simp only [List.filter_append, hd, h0, List.nil_append]
    simp [hrow, hd]
  have e2 := store_existing wd2 (store_workout_in_supabase wd1 st).2
    (newWorkoutRow wd1 st.next_workout_id) [] hfilter
  refine ⟨?_, ?_, ?_, newExerciseRows_workout_id⟩
  · rw [e2]
    simp only []
    rw [show (store_workout_in_supabase wd1 st).2.workouts
        = st.workouts ++ [newWorkoutRow wd1 st.next_workout_id] by rw [e1],
      List.filter_append, h0, List.nil_append]
    simp [hrow]
  · rw [e2, e1]
    simp [newWorkoutRow]
  · rw [e2]
    simp only []
    rw [show (store_workout_in_supabase wd1 st).2.exercises
        = st.exercises ++ newExerciseRows st.next_workout_id st.next_exercise_id 0
            wd1.exercises by rw [e1],
      show (store_workout_in_supabase wd1 st).2.next_exercise_id
        = st.next_exercise_id + wd1.exercises.length by rw [e1],
      show (store_workout_in_supabase wd1 st).1 = st.next_workout_id by rw [e1]]
    rw [show (newWorkoutRow wd1 st.next_workout_id).id = st.next_workout_id from rfl,
      List.append_assoc]

/-- Witness for C1 at a concrete pair of submissions. -/
theorem C1_same_date_merge_witness :
    ((store_workout_in_supabase wdB (store_workout_in_supabase wdA emptyStore).2).2.workouts.filter
        (fun w => w.date == wdA.date)).length = 1 ∧
    (store_workout_in_supabase wdB (store_workout_in_supabase wdA emptyStore).2).1
      = (store_workout_in_supabase wdA emptyStore).1 ∧
    (store_workout_in_supabase wdB (store_workout_in_supabase wdA emptyStore).2).2.exercises
      = emptyStore.exercises
        ++ newExerciseRows (store_workout_in_supabase wdA emptyStore).1
             emptyStore.next_exercise_id 0 wdA.exercises
        ++ newExerciseRows (store_workout_in_supabase wdA emptyStore).1
             (emptyStore.next_exercise_id + wdA.exercises.length) 0 wdB.exercises ∧
    (∀ wid exs base idx, ∀ e ∈ newExerciseRows wid base idx exs,
      e.workout_id = wid) :=
  C1_same_date_merge wdA wdB emptyStore rfl rfl

/-! ## What one store call appends, branch-independently -/

theorem store_exercises_eq (wd : WorkoutData) (st : Store) :
    (store_workout_in_supabase wd st).2.exercises
      = st.exercises ++ newExerciseRows (store_workout_in_supabase wd st).1
          st.next_exercise_id 0 wd.exercises := by
  cases h : st.workouts.filter (fun w => w.date == wd.date) with
  | nil => rw [store_new wd st h]
  | cons w ws => rw [store_existing wd st w ws h]

theorem store_sets_eq (wd : WorkoutData) (st : Store) :
    (store_workout_in_supabase wd st).2.sets
      = st.sets ++ newSetRows st.next_exercise_id wd.exercises := by
  cases h : st.workouts.filter (fun w => w.date == wd.date) with
  | nil => rw [store_new wd st h]
  | cons w ws => rw [store_existing wd st w ws h]

theorem newExerciseRows_map_order (wid : Nat) (exs : List ExerciseData) :
    ∀ base idx, (newExerciseRows wid base idx exs).map (fun e => e.order_index)
      = List.range' idx exs.length := by
  induction exs with
  | nil => intro base idx; simp [newExerciseRows]
  | cons ex rest ih =>
      intro base idx
      rw [newExerciseRows, List.map_cons, ih (base + 1) (idx + 1)]
      rfl

theorem newExerciseRows_map_name (wid : Nat) (exs : List ExerciseData) :
    ∀ base idx, (newExerciseRows wid base idx exs).map (fun e => e.exercise_name)
      = exs.map (fun ex => pyTitle (pyStrip ex.name)) := by
  induction exs with
  | nil => intro base idx; simp [newExerciseRows]
  | cons ex rest ih =>
      intro base idx
      rw [newExerciseRows, List.map_cons, ih (base + 1) (idx + 1), List.map_cons]

/-- Claim C4 amended: within a single submission order_index does record
insertion order (the rows appended by one store call carry order_index
0, 1, ... in insertion order, an ascending sequence), but a later
same-date submission restarts the count at 0, so across submissions the
order_index sort does not reproduce logging order. -/
theorem C4_amended_order_within_submission (wd : WorkoutData) (st : Store) :
    (store_workout_in_supabase wd st).2.exercises
      = st.exercises ++ newExerciseRows (store_workout_in_supabase wd st).1
          st.next_exercise_id 0 wd.exercises ∧
    ((newExerciseRows (store_workout_in_supabase wd st).1 st.next_exercise_id 0
        wd.exercises).map (fun e => e.order_index)
      = List.range wd.exercises.length) ∧
    List.Sorted (· ≤ ·)
      ((newExerciseRows (store_workout_in_supabase wd st).1 st.next_exercise_id 0
        wd.exercises).map (fun e => e.order_index)) := by
  have hord := newExerciseRows_map_order (store_workout_in_supabase wd st).1
    wd.exercises st.next_exercise_id 0
  refine ⟨store_exercises_eq wd st, ?_, ?_⟩
  · rw [hord, List.range_eq_range']
  · rw [hord]
    exact (List.pairwise_lt_range' 0 wd.exercises.length).imp le_of_lt

/-- Claim C4 counterexample: logging wdA (exercises A, B) and then wdB
(exercise C) on the same date leaves the workout with rows logged in
order A, B, C but order_index values 0, 1, 0; reading them sorted by
order_index yields A, C, B, not the logging order. -/
theorem C4_counterexample :
    ((stAB.exercises.filter (fun e => e.workout_id == 0)).map
        (fun e => e.exercise_name) = ["A", "B", "C"]) ∧
    ((stAB.exercises.filter (fun e => e.workout_id == 0)).map
        (fun e => e.order_index) = [0, 1, 0]) ∧
    ((sortBy (fun a b => decide (a.order_index ≤ b.order_index))
        (stAB.exercises.filter (fun e => e.workout_id == 0))).map
        (fun e => e.exercise_name) = ["A", "C", "B"]) ∧
    ¬ List.Sorted (· ≤ ·)
      ((stAB.exercises.filter (fun e => e.workout_id == 0)).map
        (fun e => e.order_index)) := by
  refine ⟨?_, ?_, ?_, ?_⟩ <;> decide

/-! ## Set numbering -/

theorem setRowsForExercise_map_num (eid : Nat) (sets : List SetData) :
    (setRowsForExercise eid sets).map (fun s => s.set_number)
      = (List.range sets.length).map (fun i => i + 1) := by
  unfold setRowsForExercise
  rw [List.map_map, ← List.enum_map_fst sets, List.map_map]
  rfl

theorem setRowsForExercise_ignores_set_number (eid : Nat) (sets : List SetData)
    (g : SetData → Option Nat) :
    setRowsForExercise eid (sets.map (fun x => { x with set_number := g x }))
      = setRowsForExercise eid sets := by
  unfold setRowsForExercise
  rw [List.enum_map, List.map_map]
  rfl

/-- Claim C5: one store call appends exactly the set rows of the parsed
exercises; within each exercise the stored set_number values are
1, 2, ..., n in insertion order, and they are computed from the loop
position alone: rewriting every parsed set_number field in the input
leaves the inserted rows unchanged. -/
theorem C5_set_numbers (wd : WorkoutData) (st : Store) :
    (store_workout_in_supabase wd st).2.sets
      = st.sets ++ newSetRows st.next_exercise_id wd.exercises ∧
    (∀ eid sets, (setRowsForExercise eid sets).map (fun s => s.set_number)
        = (List.range sets.length).map (fun i => i + 1)) ∧
    (∀ eid sets (g : SetData → Option Nat),
        setRowsForExercise eid (sets.map (fun x => { x with set_number := g x }))
          = setRowsForExercise eid sets) :=
  ⟨store_sets_eq wd st, setRowsForExercise_map_num,
    setRowsForExercise_ignores_set_number⟩

/-! ## Exercise name normalisation -/

/-- Claim C8: every exercise row a store call appends carries the
parsed name passed through strip and title, Python title case; the
closing conjuncts evaluate the normalisation on sample names. -/
theorem C8_title_case (wd : WorkoutData) (st : Store) :
    (store_workout_in_supabase wd st).2.exercises
      = st.exercises ++ newExerciseRows (store_workout_in_supabase wd st).1
          st.next_exercise_id 0 wd.exercises ∧
    (∀ wid exs base idx,
        (newExerciseRows wid base idx exs).map (fun e => e.exercise_name)
          = exs.map (fun ex => pyTitle (pyStrip ex.name))) ∧
    pyTitle (pyStrip "  bench press  ") = "Bench Press" ∧
    pyTitle (pyStrip "BENCH PRESS") = "Bench Press" := by
  refine ⟨store_exercises_eq wd st, ?_, by decide, by decide⟩
  intro wid exs base idx
  exact newExerciseRows_map_name wid exs base idx

/-! ## Defaults for missing fields -/

/-- Claim C6: a missing or empty parsed date becomes today during
parsing; a missing workout_type is stored as strength when the workout
row is created; a parsed set without a weight is stored with
weight_lbs 0. -/
theorem C6_defaults (today : String) (raw : RawParsed) (wd : WorkoutData)
    (st : Store) (eid : Nat) (sd : SetData)
    (hdate : raw.date = none ∨ raw.date = some "")
    (htype : wd.workout_type = none)
    (hnew : st.workouts.filter (fun w => w.date == wd.date) = [])
    (hweight : sd.weight_lbs = none) :
    (ensureDate today raw).date = today ∧
    (store_workout_in_supabase wd st).2.workouts
      = st.workouts ++ [newWorkoutRow wd st.next_workout_id] ∧
    (newWorkoutRow wd st.next_workout_id).workout_type = "strength" ∧
    (setRowsForExercise eid [sd]).map (fun s => s.weight_lbs) = [0] := by
  refine ⟨?_, ?_, ?_, ?_⟩
  · rcases hdate with h | h <;> simp [ensureDate, h]
  · rw [store_new wd st hnew]
  · simp [newWorkoutRow, htype]
  · simp [setRowsForExercise, List.enum, hweight]

/-- Witness for C6 at a concrete parse and store input. -/
theorem C6_defaults_witness :
    (ensureDate "2025-03-01"
      { date := none, duration_minutes := none, workout_type := none,
        exercises := [], notes := none }).date = "2025-03-01" ∧
    (store_workout_in_supabase
        { date := "2025-03-02", duration_minutes := none, workout_type := none,
          exercises := [], notes := none } emptyStore).2.workouts
      = emptyStore.workouts
        ++ [newWorkoutRow
              { date := "2025-03-02", duration_minutes := none,
                workout_type := none, exercises := [], notes := none }
              emptyStore.next_workout_id] ∧
    (newWorkoutRow
        { date := "2025-03-02", duration_minutes := none, workout_type := none,
          exercises := [], notes := none }
        emptyStore.next_workout_id).workout_type = "strength" ∧
    (setRowsForExercise 7
        [{ set_number := some 3, reps := 5, weight_lbs := none }]).map
      (fun s => s.weight_lbs) = [0] :=
  C6_defaults "2025-03-01"
    { date := none, duration_minutes := none, workout_type := none,
      exercises := [], notes := none }
    { date := "2025-03-02", duration_minutes := none, workout_type := none,
      exercises := [], notes := none }
    emptyStore 7 { set_number := some 3, reps := 5, weight_lbs := none }
    (Or.inl rfl) rfl rfl rfl

/-! ## Duration of a workout without one -/

/-- Claim C7 counterexample: for a parsed workout without a duration
the insert payload still carries the duration_minutes key, bound to
null, and the stored row holds a null duration; the field is present
with a null value, not absent. -/
theorem C7_counterexample :
    (workoutInsertDict wdNoDuration).lookup "duration_minutes"
      = some PyVal.vnull ∧
    (workoutInsertDict wdNoDuration).map Prod.fst
      = ["date", "duration_minutes", "workout_type", "notes"] ∧
    (store_workout_in_supabase wdNoDuration emptyStore).2.workouts
      = [{ id := 0, date := "2025-02-03", duration_minutes := none,
           workout_type := "strength", notes := "leg day" }] := by
  refine ⟨?_, ?_, ?_⟩ <;> decide

/-- Claim C7 amended: when the parsed input omits duration_minutes, the
insert payload contains the duration_minutes key with a null value and
the created workout row stores a null duration (the field is present
with null rather than absent). -/
theorem C7_amended_null_duration (wd : WorkoutData) (st : Store)
    (hdur : wd.duration_minutes = none)
    (hnew : st.workouts.filter (fun w => w.date == wd.date) = []) :
    (workoutInsertDict wd).lookup "duration_minutes" = some PyVal.vnull ∧
    (store_workout_in_supabase wd st).2.workouts
      = st.workouts ++ [newWorkoutRow wd st.next_workout_id] ∧
    (newWorkoutRow wd st.next_workout_id).duration_minutes = none := by
  refine ⟨?_, ?_, ?_⟩
  · simp only [workoutInsertDict, hdur]
    rfl
  · rw [store_new wd st hnew]
  · simp [newWorkoutRow, hdur]

/-- Witness for the amended C7 at a concrete workout. -/
theorem C7_amended_null_duration_witness :
    (workoutInsertDict wdNoDuration).lookup "duration_minutes"
      = some PyVal.vnull ∧
    (store_workout_in_supabase wdNoDuration emptyStore).2.workouts
      = emptyStore.workouts
        ++ [newWorkoutRow wdNoDuration emptyStore.next_workout_id] ∧
    (newWorkoutRow wdNoDuration emptyStore.next_workout_id).duration_minutes
      = none :=
  C7_amended_null_duration wdNoDuration emptyStore rfl rfl

/-! ## Authentication guards -/

/-- Claim C3: a request to any protected endpoint whose supplied
api_key differs from the configured key is answered with 401, the
store is returned unchanged, and the webhook never reaches its store
call. -/
theorem C3_invalid_key (cfg k : String) (hk : k ≠ cfg)
    (gemini : String → Except String RawParsed) (today : String) (b : ReqBody)
    (hb : b.api_key = some k) (eid : Nat) (st : Store) :
    (log_workout cfg gemini today (some b) st).1.status = 401 ∧
    (log_workout cfg gemini today (some b) st).1.storeCalled = false ∧
    (log_workout cfg gemini today (some b) st).1.geminiInvoked = false ∧
    (log_workout cfg gemini today (some b) st).2 = st ∧
    (get_all_workouts cfg (some k) st).1.1 = 401 ∧
    (get_all_workouts cfg (some k) st).2 = st ∧
    (get_exercise_history cfg (some k) eid st).1.1 = 401 ∧
    (get_exercise_history cfg (some k) eid st).2 = st ∧
    (get_all_exercises cfg (some k) st).1.1 = 401 ∧
    (get_all_exercises cfg (some k) st).2 = st := by
  have hne : some k ≠ some cfg := by simpa using hk
  have hfal : bodyFalsy b = false := by simp [bodyFalsy, hb]
  simp [log_workout, get_all_workouts, get_exercise_history, get_all_exercises,
    hfal, hb, hne]

/-- Witness for C3 at a concrete wrong key against a populated
store. -/
theorem C3_invalid_key_witness :
    (log_workout "secret" (fun _ => Except.error "down") "2025-01-02"
        (some { api_key := some "wrong", text := some "bench" }) stBench).1.status
      = 401 ∧
    (log_workout "secret" (fun _ => Except.error "down") "2025-01-02"
        (some { api_key := some "wrong", text := some "bench" }) stBench).1.storeCalled
      = false ∧
    (log_workout "secret" (fun _ => Except.error "down") "2025-01-02"
        (some { api_key := some "wrong", text := some "bench" }) stBench).1.geminiInvoked
      = false ∧
    (log_workout "secret" (fun _ => Except.error "down") "2025-01-02"
        (some { api_key := some "wrong", text := some "bench" }) stBench).2
      = stBench ∧
    (get_all_workouts "secret" (some "wrong") stBench).1.1 = 401 ∧
    (get_all_workouts "secret" (some "wrong") stBench).2 = stBench ∧
    (get_exercise_history "secret" (some "wrong") 0 stBench).1.1 = 401 ∧
    (get_exercise_history "secret" (some "wrong") 0 stBench).2 = stBench ∧
    (get_all_exercises "secret" (some "wrong") stBench).1.1 = 401 ∧
    (get_all_exercises "secret" (some "wrong") stBench).2 = stBench :=
  C3_invalid_key "secret" "wrong" (by decide)
    (fun _ => Except.error "down") "2025-01-02"
    { api_key := some "wrong", text := some "bench" } rfl 0 stBench

/-! ## Blank workout text -/

theorem pyStrip_of_all_space (s : String)
    (h : s.data.all pyIsSpace = true) : pyStrip s = "" := by
  unfold pyStrip
  have h1 : s.data.dropWhile pyIsSpace = [] :=
    List.dropWhile_eq_nil_iff.mpr (fun x hx => (List.all_eq_true.mp h) x hx)
  rw [h1]
  rfl

/-- Claim C10: a webhook call with valid JSON and the right api_key
whose text is missing, empty or whitespace-only is answered 400 with
the no-workout-text error, and neither the Gemini parser nor the store
is reached. -/
theorem C10_blank_text (cfg : String)
    (gemini : String → Except String RawParsed) (today : String) (b : ReqBody)
    (hkey : b.api_key = some cfg)
    (htext : b.text = none ∨ ∃ t, b.text = some t ∧ t.data.all pyIsSpace = true)
    (st : Store) :
    (log_workout cfg gemini today (some b) st).1.status = 400 ∧
    (log_workout cfg gemini today (some b) st).1.error
      = some "No workout text provided" ∧
    (log_workout cfg gemini today (some b) st).1.geminiInvoked = false ∧
    (log_workout cfg gemini today (some b) st).1.storeCalled = false ∧
    (log_workout cfg gemini today (some b) st).2 = st := by
  have hfal : bodyFalsy b = false := by simp [bodyFalsy, hkey]
  have hstrip : pyStrip (b.text.getD "") = "" := by
    rcases htext with h | ⟨t, ht, hall⟩
    · rw [h]; rfl
    · rw [ht]
      exact pyStrip_of_all_space t hall
  simp [log_workout, hfal, hkey, hstrip]

/-- Witness for C10 with a whitespace-only text field. -/
theorem C10_blank_text_witness :
    (log_workout "secret" (fun _ => Except.error "down") "2025-01-02"
        (some { api_key := some "secret", text := some "   " }) emptyStore).1.status
      = 400 ∧
    (log_workout "secret" (fun _ => Except.error "down") "2025-01-02"
        (some { api_key := some "secret", text := some "   " }) emptyStore).1.error
      = some "No workout text provided" ∧
    (log_workout "secret" (fun _ => Except.error "down") "2025-01-02"
        (some { api_key := some "secret", text := some "   " }) emptyStore).1.geminiInvoked
      = false ∧
    (log_workout "secret" (fun _ => Except.error "down") "2025-01-02"
        (some { api_key := some "secret", text := some "   " }) emptyStore).1.storeCalled
      = false ∧
    (log_workout "secret" (fun _ => Except.error "down") "2025-01-02"
        (some { api_key := some "secret", text := some "   " }) emptyStore).2
      = emptyStore :=
  C10_blank_text "secret" (fun _ => Except.error "down") "2025-01-02"
    { api_key := some "secret", text := some "   " } rfl
    (Or.inr ⟨"   ", rfl, by decide⟩) emptyStore

/-! ## Stable sort facts -/

theorem insertSortedBy_perm (le : α → α → Bool) (a : α) (l : List α) :
    (insertSortedBy le a l).Perm (a :: l) := by
  induction l with
  | nil => exact List.Perm.refl _
  | cons b l ih =>
      rw [insertSortedBy]
      by_cases h : le a b
      · rw [if_pos h]
      · rw [if_neg h]
        exact (ih.cons b).trans (List.Perm.swap a b l)

theorem sortBy_perm (le : α → α → Bool) (l : List α) : (sortBy le l).Perm l := by
  induction l with
  | nil => exact List.Perm.refl _
  | cons a l ih =>
      rw [sortBy]
      exact (insertSortedBy_perm le a (sortBy le l)).trans (ih.cons a)

theorem mem_sortBy {le : α → α → Bool} {l : List α} {a : α} :
    a ∈ sortBy le l ↔ a ∈ l :=
  (sortBy_perm le l).mem_iff

theorem length_sortBy (le : α → α → Bool) (l : List α) :
    (sortBy le l).length = l.length :=
  (sortBy_perm le l).length_eq

/-! ## Exercise history -/

/-- Claim C2: for an exercise id present in the store, the history
endpoint answers 200 with one history entry per stored exercise row
sharing that id's name (grouping is by name, across workouts); each
entry's totals and maxima are the sums and maxima over its own set
rows (maxima defaulting to 0 on no sets), and the statistics object is
the same sums and maxima over all sets of all entries. -/
theorem C2_exercise_history (cfg : String) (eid : Nat) (st : Store)
    (e0 : ExerciseRow)
    (hfind : st.exercises.find? (fun e => e.id == eid) = some e0) :
    ∃ resp : HistoryResponse,
      (get_exercise_history cfg (some cfg) eid st).1
        = (200, HistoryResult.full resp) ∧
      resp.exercise_name = e0.exercise_name ∧
      resp.history.length
        = (st.exercises.filter
            (fun e => e.exercise_name == e0.exercise_name)).length ∧
      (resp.history.map (fun h => h.exercise_id)).Perm
        ((st.exercises.filter
            (fun e => e.exercise_name == e0.exercise_name)).map
          (fun e => e.id)) ∧
      (∀ h ∈ resp.history,
        h.total_sets = h.sets.length ∧
        h.total_reps = sumReps h.sets ∧
        h.total_volume = sumVolume h.sets ∧
        h.max_weight = maxWeight h.sets ∧
        h.max_reps = maxReps h.sets) ∧
      maxWeight [] = 0 ∧ maxReps [] = 0 ∧
      resp.statistics
        = { total_workouts := resp.history.length,
            total_sets := (allSetsOf resp.history).length,
            total_reps := sumReps (allSetsOf resp.history),
            total_volume := sumVolume (allSetsOf resp.history),
            max_weight_ever := maxWeight (allSetsOf resp.history),
            max_reps_ever := maxReps (allSetsOf resp.history) } := by
  have hmem : e0 ∈ st.exercises := List.mem_of_find?_eq_some hfind
  have hself : e0 ∈ st.exercises.filter
      (fun e => e.exercise_name == e0.exercise_name) :=
    List.mem_filter.mpr ⟨hmem, by simp⟩
  have hempty : (st.exercises.filter
      (fun e => e.exercise_name == e0.exercise_name)).isEmpty = false := by
    cases hm : st.exercises.filter (fun e => e.exercise_name == e0.exercise_name) with
    | nil => rw [hm] at hself; exact absurd hself (List.not_mem_nil e0)
    | cons x xs => rfl
  have heq : get_exercise_history cfg (some cfg) eid st
      = ((200, HistoryResult.full
          { exercise_id := eid, exercise_name := e0.exercise_name,
            history := sortBy
              (fun a b => pyStrLe (b.date.getD "") (a.date.getD ""))
              ((st.exercises.filter
                  (fun e => e.exercise_name == e0.exercise_name)).map
                (mkHistoryEntry st)),
            statistics :=
              { total_workouts := (sortBy
                  (fun a b => pyStrLe (b.date.getD "") (a.date.getD ""))
                  ((st.exercises.filter
                      (fun e => e.exercise_name == e0.exercise_name)).map
                    (mkHistoryEntry st))).length,
                total_sets := (allSetsOf (sortBy
                  (fun a b => pyStrLe (b.date.getD "") (a.date.getD ""))
                  ((st.exercises.filter
                      (fun e => e.exercise_name == e0.exercise_name)).map
                    (mkHistoryEntry st)))).length,
                total_reps := sumReps (allSetsOf (sortBy
                  (fun a b => pyStrLe (b.date.getD "") (a.date.getD ""))
                  ((st.exercises.filter
                      (fun e => e.exercise_name == e0.exercise_name)).map
                    (mkHistoryEntry st)))),
                total_volume := sumVolume (allSetsOf (sortBy
                  (fun a b => pyStrLe (b.date.getD "") (a.date.getD ""))
                  ((st.exercises.filter
                      (fun e => e.exercise_name == e0.exercise_name)).map
                    (mkHistoryEntry st)))),
                max_weight_ever := maxWeight (allSetsOf (sortBy
                  (fun a b => pyStrLe (b.date.getD "") (a.date.getD ""))
                  ((st.exercises.filter
                      (fun e => e.exercise_name == e0.exercise_name)).map
                    (mkHistoryEntry st)))),
                max_reps_ever := maxReps (allSetsOf (sortBy
                  (fun a b => pyStrLe (b.date.getD "") (a.date.getD ""))
                  ((st.exercises.filter
                      (fun e => e.exercise_name == e0.exercise_name)).map
                    (mkHistoryEntry st)))) } }), st) := by
    unfold get_exercise_history
    rw [if_neg (by simp), hfind]
    simp only [hempty, Bool.false_eq_true, if_false]
  refine ⟨_, by rw [heq], rfl, ?_, ?_, ?_, rfl, rfl, rfl⟩
  · rw [length_sortBy, List.length_map]
  · have hp := (sortBy_perm
      (fun a b => pyStrLe (b.date.getD "") (a.date.getD ""))
      ((st.exercises.filter
          (fun e => e.exercise_name == e0.exercise_name)).map
        (mkHistoryEntry st))).map (fun h => h.exercise_id)
    rw [List.map_map] at hp
    exact hp
  · intro h hh
    have : h ∈ (st.exercises.filter
        (fun e => e.exercise_name == e0.exercise_name)).map
        (mkHistoryEntry st) := mem_sortBy.mp hh
    rcases List.mem_map.mp this with ⟨e, _, he⟩
    subst he
    exact ⟨rfl, rfl, rfl, rfl, rfl⟩

/-- Witness for C2 against the populated Bench Press store. -/
theorem C2_exercise_history_witness :
    ∃ resp : HistoryResponse,
      (get_exercise_history "secret" (some "secret") 0 stBench).1
        = (200, HistoryResult.full resp) ∧
      resp.exercise_name
        = ({ id := 0, workout_id := 0, exercise_name := "Bench Press",
             order_index := 0 } : ExerciseRow).exercise_name ∧
      resp.history.length
        = (stBench.exercises.filter
            (fun e => e.exercise_name == "Bench Press")).length ∧
      (resp.history.map (fun h => h.exercise_id)).Perm
        ((stBench.exercises.filter
            (fun e => e.exercise_name == "Bench Press")).map (fun e => e.id)) ∧
      (∀ h ∈ resp.history,
        h.total_sets = h.sets.length ∧
        h.total_reps = sumReps h.sets ∧
        h.total_volume = sumVolume h.sets ∧
        h.max_weight = maxWeight h.sets ∧
        h.max_reps = maxReps h.sets) ∧
      maxWeight [] = 0 ∧ maxReps [] = 0 ∧
      resp.statistics
        = { total_workouts := resp.history.length,
            total_sets := (allSetsOf resp.history).length,
            total_reps := sumReps (allSetsOf resp.history),
            total_volume := sumVolume (allSetsOf resp.history),
            max_weight_ever := maxWeight (allSetsOf resp.history),
            max_reps_ever := maxReps (allSetsOf resp.history) } :=
  C2_exercise_history "secret" 0 stBench
    { id := 0, workout_id := 0, exercise_name := "Bench Press",
      order_index := 0 } rfl

/-! ## Personal record aggregation -/

theorem pyWeight_eq (w : Nat) : pyWeight w = w := by
  unfold pyWeight
  by_cases h : w = 0
  · simp [h]
  · simp [h]

theorem maxWeight_cons (s : SetRow) (l : List SetRow) :
    maxWeight (s :: l) = Nat.max s.weight_lbs (maxWeight l) := rfl

theorem natmax_assoc (a b c : Nat) :
    Nat.max (Nat.max a b) c = Nat.max a (Nat.max b c) := by
  simp only [Nat.max_def]
  split_ifs <;> omega

theorem maxWeight_append (l₁ l₂ : List SetRow) :
    maxWeight (l₁ ++ l₂) = Nat.max (maxWeight l₁) (maxWeight l₂) := by
  induction l₁ with
  | nil => simp [maxWeight]
  | cons s l ih =>
      rw [List.cons_append, maxWeight_cons, maxWeight_cons, ih, natmax_assoc]

theorem updateAgg_name (a : ExerciseAgg) (r : JoinedExercise) :
    (updateAgg a r).name = a.name := by
  unfold updateAgg
  dsimp only
  split <;> rfl

theorem updateAgg_pr (a : ExerciseAgg) (r : JoinedExercise) :
    ((updateAgg a r).pr_weight, (updateAgg a r).pr_date)
      = prStep (a.pr_weight, a.pr_date) r := by
  unfold updateAgg prStep
  dsimp only
  split <;> rfl

theorem updatePR_cons (p : Nat × Option String) (d : String) (s : SetRow)
    (ss : List SetRow) :
    updatePR p d (s :: ss)
      = updatePR (if pyWeight s.weight_lbs > p.1
          then (pyWeight s.weight_lbs, some d) else p) d ss := rfl

theorem updatePR_fst (d : String) (sets : List SetRow) :
    ∀ p : Nat × Option String, (updatePR p d sets).1 = Nat.max p.1 (maxWeight sets) := by
  induction sets with
  | nil => intro p; simp [updatePR, maxWeight]
  | cons s ss ih =>
      intro p
      rw [updatePR_cons, ih, maxWeight_cons]
      simp only [pyWeight_eq]
      by_cases h : s.weight_lbs > p.1
      · rw [if_pos h]
        simp only [Nat.max_def]
        split_ifs <;> omega
      · rw [if_neg h]
        simp only [Nat.max_def]
        split_ifs <;> omega

theorem updatePR_cases (d : String) (sets : List SetRow) :
    ∀ p : Nat × Option String, updatePR p d sets = p ∨
      (p.1 < (updatePR p d sets).1 ∧ (updatePR p d sets).2 = some d ∧
        ∃ t ∈ sets, t.weight_lbs = (updatePR p d sets).1) := by
  induction sets with
  | nil => intro p; left; rfl
  | cons s ss ih =>
      intro p
      rw [updatePR_cons]
      simp only [pyWeight_eq]
      by_cases h : s.weight_lbs > p.1
      · rw [if_pos h]
        rcases ih (s.weight_lbs, some d) with h2 | ⟨h2a, h2b, t, ht, hw⟩
        · right
          rw [h2]
          exact ⟨h, rfl, s, List.mem_cons_self s ss, rfl⟩
        · right
          exact ⟨Nat.lt_trans h h2a, h2b, t, List.mem_cons_of_mem s ht, hw⟩
      · rw [if_neg h]
        rcases ih p with h2 | ⟨h2a, h2b, t, ht, hw⟩
        · left; exact h2
        · right
          exact ⟨h2a, h2b, t, List.mem_cons_of_mem s ht, hw⟩

theorem allRecSets_cons (r : JoinedExercise) (rs : List JoinedExercise) :
    allRecSets (r :: rs) = r.sets ++ allRecSets rs := rfl

theorem foldl_prStep_fst (rs : List JoinedExercise) :
    ∀ p : Nat × Option String,
      (rs.foldl prStep p).1 = Nat.max p.1 (maxWeight (allRecSets rs)) := by
  induction rs with
  | nil => intro p; simp [allRecSets, maxWeight]
  | cons r rs ih =>
      intro p
      rw [List.foldl_cons, ih, allRecSets_cons, maxWeight_append,
        show (prStep p r).1 = Nat.max p.1 (maxWeight r.sets) from
          updatePR_fst r.workout_date r.sets p, natmax_assoc]

theorem foldl_prStep_cases (rs : List JoinedExercise) :
    ∀ p : Nat × Option String, rs.foldl prStep p = p ∨
      (p.1 < (rs.foldl prStep p).1 ∧
        ∃ r ∈ rs, (rs.foldl prStep p).2 = some r.workout_date ∧
          ∃ t ∈ r.sets, t.weight_lbs = (rs.foldl prStep p).1) := by
  induction rs with
  | nil => intro p; left; rfl
  | cons r rs ih =>
      intro p
      rw [List.foldl_cons]
      rcases updatePR_cases r.workout_date r.sets p with h1 | ⟨h1a, h1b, t, ht, hw⟩
      · rw [show prStep p r = p from h1]
        rcases ih p with h2 | ⟨h2a, r2, hr2, h2b, t2, ht2, hw2⟩
        · left; exact h2
        · right
          exact ⟨h2a, r2, List.mem_cons_of_mem r hr2, h2b, t2, ht2, hw2⟩
      · rcases ih (prStep p r) with h2 | ⟨h2a, r2, hr2, h2b, t2, ht2, hw2⟩
        · right
          rw [h2]
          exact ⟨h1a, r, List.mem_cons_self r rs, h1b, t, ht, hw⟩
        · right
          exact ⟨Nat.lt_trans h1a h2a, r2, List.mem_cons_of_mem r hr2, h2b,
            t2, ht2, hw2⟩

theorem foldl_updateAgg_pr (rs : List JoinedExercise) :
    ∀ a : ExerciseAgg,
      ((rs.foldl updateAgg a).pr_weight, (rs.foldl updateAgg a).pr_date)
        = rs.foldl prStep (a.pr_weight, a.pr_date) := by
  induction rs with
  | nil => intro a; rfl
  | cons r rs ih =>
      intro a
      rw [List.foldl_cons, List.foldl_cons, ih, updateAgg_pr]

/-! ## The per-name dict fold -/

theorem findAgg_cons (a : ExerciseAgg) (l : List ExerciseAgg) (n : String) :
    findAgg (a :: l) n
      = if (a.name == n) = true then some a else findAgg l n := by
  unfold findAgg
  by_cases h : (a.name == n) = true
  · rw [if_pos h]
    simp only [List.find?, h]
  · have hf : (a.name == n) = false := by simpa using h
    rw [if_neg h]
    simp only [List.find?, hf]

theorem any_eq_isSome_findAgg (l : List ExerciseAgg) (n : String) :
    (l.any (fun a => a.name == n)) = (findAgg l n).isSome := by
  induction l with
  | nil => rfl
  | cons a l ih =>
      rw [List.any_cons, findAgg_cons]
      by_cases h : (a.name == n) = true
      · rw [if_pos h, h, Bool.true_or]
        rfl
      · have hf : (a.name == n) = false := by simpa using h
        rw [if_neg h, hf, Bool.false_or, ih]

theorem updateFirstAgg_names (f : ExerciseAgg → ExerciseAgg) (n : String)
    (hf : ∀ a, (f a).name = a.name) :
    ∀ l : List ExerciseAgg,
      (updateFirstAgg f n l).map (fun a => a.name) = l.map (fun a => a.name) := by
  intro l
  induction l with
  | nil => rfl
  | cons a l ih =>
      rw [updateFirstAgg]
      by_cases h : (a.name == n) = true
      · rw [if_pos h, List.map_cons, List.map_cons, hf]
      · rw [if_neg h, List.map_cons, List.map_cons, ih]

theorem findAgg_updateFirstAgg_self (f : ExerciseAgg → ExerciseAgg) (n : String)
    (hf : ∀ a, (f a).name = a.name) :
    ∀ l : List ExerciseAgg,
      findAgg (updateFirstAgg f n l) n = (findAgg l n).map f := by
  intro l
  induction l with
  | nil => rfl
  | cons a l ih =>
      rw [updateFirstAgg]
      by_cases h : (a.name == n) = true
      · have hfa : ((f a).name == n) = true := by rw [hf]; exact h
        rw [if_pos h, findAgg_cons, findAgg_cons, if_pos h, if_pos hfa]
        rfl
      · rw [if_neg h, findAgg_cons, findAgg_cons, if_neg h, if_neg h, ih]

theorem findAgg_updateFirstAgg_other (f : ExerciseAgg → ExerciseAgg)
    (n m : String) (hf : ∀ a, (f a).name = a.name) (hnm : m ≠ n) :
    ∀ l : List ExerciseAgg,
      findAgg (updateFirstAgg f n l) m = findAgg l m := by
  intro l
  induction l with
  | nil => rfl
  | cons a l ih =>
      rw [updateFirstAgg]
      by_cases h : (a.name == n) = true
      · have han : a.name = n := by simpa using h
        have ham : (a.name == m) = false :=
          beq_eq_false_iff_ne.mpr (by rw [han]; exact Ne.symm hnm)
        have hfa : ((f a).name == m) = false := by rw [hf]; exact ham
        rw [if_pos h, findAgg_cons, findAgg_cons, if_neg (by simp [hfa]),
          if_neg (by simp [ham])]
      · rw [if_neg h, findAgg_cons, findAgg_cons]
        by_cases h2 : (a.name == m) = true
        · rw [if_pos h2, if_pos h2]
        · rw [if_neg h2, if_neg h2, ih]

theorem findAgg_append_some (l : List ExerciseAgg) (x : ExerciseAgg)
    (n : String) (a : ExerciseAgg) (h : findAgg l n = some a) :
    findAgg (l ++ [x]) n = some a := by
  induction l with
  | nil => cases h
  | cons b l ih =>
      rw [findAgg_cons] at h
      rw [List.cons_append, findAgg_cons]
      by_cases hb : (b.name == n) = true
      · rw [if_pos hb] at h
        rw [if_pos hb]
        exact h
      · rw [if_neg hb] at h
        rw [if_neg hb]
        exact ih h

theorem findAgg_append_none (l : List ExerciseAgg) (x : ExerciseAgg)
    (n : String) (h : findAgg l n = none) :
    findAgg (l ++ [x]) n = if (x.name == n) = true then some x else none := by
  induction l with
  | nil =>
      rw [List.nil_append, findAgg_cons]
      rfl
  | cons b l ih =>
      rw [findAgg_cons] at h
      rw [List.cons_append, findAgg_cons]
      by_cases hb : (b.name == n) = true
      · rw [if_pos hb] at h
        cases h
      · rw [if_neg hb] at h
        rw [if_neg hb]
        exact ih h

theorem recsOfName_cons_pos (n : String) (r : JoinedExercise)
    (rest : List JoinedExercise) (h : (r.exercise_name == n) = true) :
    recsOfName n (r :: rest) = r :: recsOfName n rest := by
  simp [recsOfName, List.filter_cons, h]

theorem recsOfName_cons_neg (n : String) (r : JoinedExercise)
    (rest : List JoinedExercise) (h : (r.exercise_name == n) = false) :
    recsOfName n (r :: rest) = recsOfName n rest := by
  simp [recsOfName, List.filter_cons, h]

theorem findAgg_foldl_some (recs : List JoinedExercise) :
    ∀ (acc : List ExerciseAgg) (n : String) (a : ExerciseAgg),
      findAgg acc n = some a →
      findAgg (recs.foldl processRecord acc) n
        = some ((recsOfName n recs).foldl updateAgg a) := by
  induction recs with
  | nil =>
      intro acc n a h
      simpa [recsOfName] using h
  | cons r rest ih =>
      intro acc n a h
      rw [List.foldl_cons]
      by_cases hn : (r.exercise_name == n) = true
      · have hrn : r.exercise_name = n := by simpa using hn
        have hany : (acc.any (fun x => x.name == r.exercise_name)) = true := by
          rw [hrn, any_eq_isSome_findAgg, h]
          rfl
        have hacc : processRecord acc r
            = updateFirstAgg (fun x => updateAgg x r) r.exercise_name acc := by
          unfold processRecord
          rw [if_pos hany]
        have hfind2 : findAgg (processRecord acc r) n = some (updateAgg a r) := by
          rw [hacc, hrn, findAgg_updateFirstAgg_self _ n
            (fun x => updateAgg_name x r), h]
          rfl
        rw [ih _ n (updateAgg a r) hfind2, recsOfName_cons_pos n r rest hn]
        rfl
      · have hnb : (r.exercise_name == n) = false := by simpa using hn
        have hne : r.exercise_name ≠ n := beq_eq_false_iff_ne.mp hnb
        have hfind2 : findAgg (processRecord acc r) n = some a := by
          unfold processRecord
          by_cases hany : (acc.any (fun x => x.name == r.exercise_name)) = true
          · rw [if_pos hany,
              findAgg_updateFirstAgg_other _ r.exercise_name n
                (fun x => updateAgg_name x r) (Ne.symm hne), h]
          · rw [if_neg hany, findAgg_append_some _ _ _ _ h]
        rw [ih _ n a hfind2, recsOfName_cons_neg n r rest hnb]

theorem findAgg_foldl_none (recs : List JoinedExercise) :
    ∀ (acc : List ExerciseAgg) (n : String),
      findAgg acc n = none →
      findAgg (recs.foldl processRecord acc) n
        = if recsOfName n recs = [] then none
          else some ((recsOfName n recs).foldl updateAgg (initAgg n)) := by
  induction recs with
  | nil =>
      intro acc n h
      simpa [recsOfName] using h
  | cons r rest ih =>
      intro acc n h
      rw [List.foldl_cons]
      by_cases hn : (r.exercise_name == n) = true
      · have hrn : r.exercise_name = n := by simpa using hn
        have hany : (acc.any (fun x => x.name == r.exercise_name)) = false := by
          rw [hrn, any_eq_isSome_findAgg, h]
          rfl
        have hacc : processRecord acc r
            = acc ++ [updateAgg (initAgg r.exercise_name) r] := by
          unfold processRecord
          rw [if_neg (by simp [hany])]
        have hname2 : ((updateAgg (initAgg r.exercise_name) r).name == n) = true := by
          rw [updateAgg_name]
          exact hn
        have hfind2 : findAgg (processRecord acc r) n
            = some (updateAgg (initAgg r.exercise_name) r) := by
          rw [hacc, findAgg_append_none _ _ _ h, if_pos hname2]
        rw [findAgg_foldl_some rest _ n _ hfind2, recsOfName_cons_pos n r rest hn,
          if_neg (by simp), hrn]
        rfl
      · have hnb : (r.exercise_name == n) = false := by simpa using hn
        have hne : r.exercise_name ≠ n := beq_eq_false_iff_ne.mp hnb
        have hfind2 : findAgg (processRecord acc r) n = none := by
          unfold processRecord
          by_cases hany : (acc.any (fun x => x.name == r.exercise_name)) = true
          · rw [if_pos hany,
              findAgg_updateFirstAgg_other _ r.exercise_name n
                (fun x => updateAgg_name x r) (Ne.symm hne), h]
          · rw [if_neg hany, findAgg_append_none _ _ _ h,
              if_neg (by rw [updateAgg_name]; simp [initAgg, hnb])]
        rw [ih _ n hfind2, recsOfName_cons_neg n r rest hnb]

theorem names_nodup_foldl (recs : List JoinedExercise) :
    ∀ acc : List ExerciseAgg, (acc.map (fun a => a.name)).Nodup →
      ((recs.foldl processRecord acc).map (fun a => a.name)).Nodup := by
  induction recs with
  | nil => intro acc h; exact h
  | cons r rest ih =>
      intro acc h
      rw [List.foldl_cons]
      apply ih
      unfold processRecord
      by_cases hany : (acc.any (fun x => x.name == r.exercise_name)) = true
      · rw [if_pos hany,
          updateFirstAgg_names _ _ (fun x => updateAgg_name x r)]
        exact h
      · have hanyf : (acc.any (fun x => x.name == r.exercise_name)) = false := by
          simpa using hany
        rw [if_neg hany, List.map_append]
        refine List.Nodup.append h (List.nodup_singleton _) ?_
        intro x hx hx2
        rw [List.map_singleton, List.mem_singleton] at hx2
        subst hx2
        rcases List.mem_map.mp hx with ⟨b, hb, hbn⟩
        have hfalse := List.any_eq_false.mp hanyf b hb
        rw [updateAgg_name] at hbn
        exact hfalse (by rw [hbn]; simp [initAgg])

theorem findAgg_of_mem_nodup (l : List ExerciseAgg) (a : ExerciseAgg)
    (hnd : (l.map (fun x => x.name)).Nodup) (ha : a ∈ l) :
    findAgg l a.name = some a := by
  induction l with
  | nil => cases ha
  | cons b l ih =>
      rw [List.map_cons, List.nodup_cons] at hnd
      rw [findAgg_cons]
      rcases List.mem_cons.mp ha with rfl | ha2
      · rw [if_pos (by simp)]
      · by_cases hb : (b.name == a.name) = true
        · exfalso
          have hba : b.name = a.name := by simpa using hb
          exact hnd.1 (by rw [hba]; exact List.mem_map.mpr ⟨a, ha2, rfl⟩)
        · rw [if_neg hb]
          exact ih hnd.2 ha2

/-! ## The joined select -/

theorem mem_joined (st : Store) (r : JoinedExercise)
    (hr : r ∈ joinedExercises st) :
    ∃ e ∈ st.exercises, ∃ w ∈ st.workouts,
      w.id = e.workout_id ∧ r.exercise_name = e.exercise_name ∧
      r.workout_date = w.date ∧
      r.sets = st.sets.filter (fun s => s.exercise_id == e.id) := by
  rcases List.mem_filterMap.mp hr with ⟨e, he, hfe⟩
  cases hw : st.workouts.find? (fun w => w.id == e.workout_id) with
  | none =>
      rw [hw] at hfe
      cases hfe
  | some w =>
      rw [hw] at hfe
      simp only [Option.map_some'] at hfe
      have hwid : (w.id == e.workout_id) = true :=
        @List.find?_some _ (fun w2 => w2.id == e.workout_id) w st.workouts hw
      injection hfe with hfe2
      refine ⟨e, he, w, List.mem_of_find?_eq_some hw, by simpa using hwid,
        ?_, ?_, ?_⟩ <;> rw [← hfe2]

theorem namedSets_eq_joined (st : Store) (name : String)
    (hWF : ∀ e ∈ st.exercises,
      (st.workouts.find? (fun w => w.id == e.workout_id)).isSome = true) :
    allRecSets (recsOfName name (joinedExercises st)) = namedSets st name := by
  have haux : ∀ l : List ExerciseRow,
      (∀ e ∈ l, (st.workouts.find? (fun w => w.id == e.workout_id)).isSome = true) →
      allRecSets (recsOfName name (l.filterMap (fun e =>
        (st.workouts.find? (fun w => w.id == e.workout_id)).map (fun w =>
          ({ exercise_name := e.exercise_name, workout_date := w.date,
             sets := st.sets.filter (fun s => s.exercise_id == e.id) }
            : JoinedExercise)))))
        = ((l.filter (fun e => e.exercise_name == name)).map
            (fun e => st.sets.filter (fun s => s.exercise_id == e.id))).flatten := by
    intro l
    induction l with
    | nil => intro _; rfl
    | cons e l ih =>
        intro hl
        have he := hl e (List.mem_cons_self e l)
        rcases Option.isSome_iff_exists.mp he with ⟨w, hw⟩
        rw [List.filterMap_cons, hw]
        simp only [Option.map_some']
        rw [List.filter_cons]
        by_cases hname : (e.exercise_name == name) = true
        · rw [recsOfName_cons_pos name _ _ hname, allRecSets_cons,
            if_pos (by simp at hname ⊢; exact hname),
            List.map_cons, List.flatten_cons,
            ih (fun x hx => hl x (List.mem_cons_of_mem e hx))]
        · have hnb : (e.exercise_name == name) = false := by simpa using hname
          rw [recsOfName_cons_neg name _ _ hnb,
            if_neg (by simp [hnb]),
            ih (fun x hx => hl x (List.mem_cons_of_mem e hx))]
  exact haux st.exercises hWF

/-- Claim C9 amended: every summary returned by get_all_exercises has
pr_weight equal to the maximum weight over all stored sets of every
exercise row carrying that name (0 when there are none); when that
maximum is positive, pr_date is the date of a workout containing an
achieving set; when it is 0 (no sets, or only weightless sets),
pr_date is null rather than a workout date. -/
theorem C9_amended_pr (cfg : String) (st : Store) (s : ExerciseSummary)
    (hWF : ∀ e ∈ st.exercises,
      (st.workouts.find? (fun w => w.id == e.workout_id)).isSome = true)
    (hmem : s ∈ ((get_all_exercises cfg (some cfg) st).1.2.getD [])) :
    s.pr_weight = maxWeight (namedSets st s.name) ∧
    (s.pr_weight ≠ 0 →
      ∃ e ∈ st.exercises, e.exercise_name = s.name ∧
        ∃ w ∈ st.workouts, w.id = e.workout_id ∧ s.pr_date = some w.date ∧
          ∃ q ∈ st.sets, q.exercise_id = e.id ∧ q.weight_lbs = s.pr_weight) ∧
    (s.pr_weight = 0 → s.pr_date = none) := by
  have hres : (get_all_exercises cfg (some cfg) st).1.2
      = some (sortBy (fun x y => pyStrLe x.name y.name)
          (((joinedExercises st).foldl processRecord []).map finalizeAgg)) := by
    unfold get_all_exercises
    rw [if_neg (by simp)]
  rw [hres, Option.getD_some] at hmem
  have hmem2 : s ∈ ((joinedExercises st).foldl processRecord []).map finalizeAgg :=
    mem_sortBy.mp hmem
  rcases List.mem_map.mp hmem2 with ⟨a, ha, hfa⟩
  have hsname : s.name = a.name := by rw [← hfa]; rfl
  have hsprw : s.pr_weight = a.pr_weight := by rw [← hfa]; rfl
  have hsprd : s.pr_date = a.pr_date := by rw [← hfa]; rfl
  have hnd := names_nodup_foldl (joinedExercises st) [] (by simp)
  have hfind := findAgg_of_mem_nodup _ a hnd ha
  have hmain := findAgg_foldl_none (joinedExercises st) [] a.name rfl
  rw [hfind] at hmain
  by_cases hrec : recsOfName a.name (joinedExercises st) = []
  · rw [if_pos hrec] at hmain
    cases hmain
  · rw [if_neg hrec] at hmain
    have ha2 : a = (recsOfName a.name (joinedExercises st)).foldl updateAgg
        (initAgg a.name) :=
      Option.some.inj hmain
    have hkey2 : (((recsOfName a.name (joinedExercises st)).foldl updateAgg
          (initAgg a.name)).pr_weight,
        ((recsOfName a.name (joinedExercises st)).foldl updateAgg
          (initAgg a.name)).pr_date)
        = (recsOfName a.name (joinedExercises st)).foldl prStep (0, none) :=
      foldl_updateAgg_pr (recsOfName a.name (joinedExercises st)) (initAgg a.name)
    rw [← ha2] at hkey2
    have hw : a.pr_weight
        = ((recsOfName a.name (joinedExercises st)).foldl prStep (0, none)).1 :=
      congrArg Prod.fst hkey2
    have hd : a.pr_date
        = ((recsOfName a.name (joinedExercises st)).foldl prStep (0, none)).2 :=
      congrArg Prod.snd hkey2
    refine ⟨?_, ?_, ?_⟩
    · rw [hsprw, hsname, hw, foldl_prStep_fst,
        namedSets_eq_joined st a.name hWF]
      simp [Nat.zero_max]
    · intro hne0
      rcases foldl_prStep_cases (recsOfName a.name (joinedExercises st)) (0, none)
        with hcase | ⟨hlt, r, hrmem, hdate, t, ht, hwt⟩
      · exfalso
        apply hne0
        rw [hsprw, hw, hcase]
      · have hpair : r ∈ joinedExercises st ∧ r.exercise_name = a.name := by
          simpa [recsOfName, List.mem_filter] using hrmem
        have hrj : r ∈ joinedExercises st := hpair.1
        have hrname : r.exercise_name = a.name := hpair.2
        rcases mem_joined st r hrj with ⟨e, he, w0, hwmem, hwid, hen, hdt, hsets⟩
        have hten : t ∈ st.sets ∧ (t.exercise_id == e.id) = true :=
          List.mem_filter.mp (hsets ▸ ht)
        refine ⟨e, he, ?_, w0, hwmem, hwid, ?_, t, hten.1, by simpa using hten.2, ?_⟩
        · rw [hsname]
          exact hen.symm.trans hrname
        · rw [hsprd, hd, hdate, hdt]
        · rw [hsprw, hw, ← hwt]
    · intro h0
      rcases foldl_prStep_cases (recsOfName a.name (joinedExercises st)) (0, none)
        with hcase | ⟨hlt, r, hrmem, hdate, t, ht, hwt⟩
      · rw [hsprd, hd, hcase]
      · exfalso
        rw [← hw] at hlt
        rw [hsprw] at h0
        omega

/-- Claim C9 counterexample: in a store whose only exercise Squat has a
single set of weight 0, the returned summary carries pr_weight 0 with
pr_date null, although the set achieving that maximum exists and lives
in the workout dated 2025-01-01; the claim as stated would require
pr_date to be that date. -/
theorem C9_counterexample :
    ((get_all_exercises "secret" (some "secret") stSquat).1.2.getD []).map
        (fun s => (s.name, s.pr_weight, s.pr_date))
      = [("Squat", 0, none)] ∧
    namedSets stSquat "Squat"
      = [{ exercise_id := 0, set_number := 1, reps := 5, weight_lbs := 0 }] ∧
    maxWeight (namedSets stSquat "Squat") = 0 ∧
    stSquat.workouts.map (fun w => w.date) = ["2025-01-01"] := by
  refine ⟨?_, ?_, ?_, ?_⟩ <;> decide

/-- Witness for the amended C9 against the Bench Press store. -/
theorem C9_amended_pr_witness :
    sBench.pr_weight = maxWeight (namedSets stBench sBench.name) ∧
    (sBench.pr_weight ≠ 0 →
      ∃ e ∈ stBench.exercises, e.exercise_name = sBench.name ∧
        ∃ w ∈ stBench.workouts, w.id = e.workout_id ∧
          sBench.pr_date = some w.date ∧
          ∃ q ∈ stBench.sets, q.exercise_id = e.id ∧
            q.weight_lbs = sBench.pr_weight) ∧
    (sBench.pr_weight = 0 → sBench.pr_date = none) :=
  C9_amended_pr "secret" stBench sBench (by decide) (by decide)

end IronTrack
